import Mathlib

/-!
Verification of the memristor characterization suite
(`sin_tester.py`, `srdp_tester.py`, `stdp_tester.py`).

Shallow embedding: floating-point quantities are modelled over `ℚ`
(the properties at stake are sign/threshold/structural, not rounding),
`np.nan` sentinels are modelled as `none : Option ℚ`, and instrument
query failures (Python exceptions) as `none` results of an instrument
model `ℕ → Option (ℚ × ℚ)`; a Python function that can raise is
modelled as returning `Option`.
-/

/-- A raw STDP sample row, `[t, vA, vB, iA, iB]` as built by
`StdpTester.run_stdp_test` (stdp_tester.py line 138). -/
structure StdpRow where
  t : ℚ
  vA : ℚ
  vB : ℚ
  iA : ℚ
  iB : ℚ
deriving DecidableEq, Repr

/-- `np.isclose(a, b, atol=0.01)` with numpy's default `rtol = 1e-5`:
`|a - b| <= atol + rtol * |b|` (used at stdp_tester.py lines 170, 184-185
and srdp_tester.py line 147). -/
def iscloseB (a b : ℚ) : Bool :=
  decide (|a - b| ≤ 1 / 100 + (1 / 100000) * |b|)

/-- Arithmetic mean of a list, `pandas .mean()` on a block
(stdp_tester.py line 180). Empty list gives `0` (never hit: blocks kept
are full). -/
def qmean (l : List ℚ) : ℚ := l.sum / (l.length : ℚ)

/-- Fuel-indexed worker for `fullChunks`. -/
def fullChunksAux (n : ℕ) : ℕ → List α → List (List α)
  | 0, _ => []
  | fuel + 1, l =>
    if n = 0 ∨ l.length < n then []
    else l.take n :: fullChunksAux n fuel (l.drop n)

/-- The chunking loop `for idx in range(0, len(data), n): block = data[idx:idx+n];
if len(block) == n: keep` (stdp_tester.py lines 174-177, 192-195, 198-201):
split a list into consecutive chunks of size `n`, dropping the final
underfull chunk. -/
def fullChunks (n : ℕ) (l : List α) : List (List α) :=
  fullChunksAux n l.length l

/-- The block extraction pattern of `process_measurement_data`
(stdp_tester.py lines 169-201): filter ALL rows whose selected voltage is
`isclose` to the target, re-index the filtered rows consecutively, chunk
them into groups of `bsize`, keep only full groups, and report each
group's (mean selected current, first row's time).  Spike groups use only
the time component of the pair (the code computes no mean there). -/
def extractBlocks (vsel isel : StdpRow → ℚ) (target : ℚ) (bsize : ℕ)
    (data : List StdpRow) : List (ℚ × ℚ) :=
  (fullChunks bsize (data.filter (fun r => iscloseB (vsel r) target))).map
    (fun g => (qmean (g.map isel), (g.headD ⟨0, 0, 0, 0, 0⟩).t))

/-- The spec's WindowedExtractor contract, stated for comparison with the
code's `extractBlocks`: scan in order, accumulate a run of consecutive
in-tolerance samples, emit a block (mean current, first sample's time)
exactly when the run reaches `bsize` and reset; a run broken by an
out-of-tolerance sample before reaching `bsize` is dropped entirely. -/
def specExtractGo (vsel isel : StdpRow → ℚ) (target : ℚ) (bsize : ℕ)
    (run : List StdpRow) : List StdpRow → List (ℚ × ℚ)
  | [] => []
  | r :: rest =>
    if iscloseB (vsel r) target then
      let run' := run ++ [r]
      if run'.length = bsize then
        (qmean (run'.map isel), (run'.headD ⟨0, 0, 0, 0, 0⟩).t) ::
          specExtractGo vsel isel target bsize [] rest
      else specExtractGo vsel isel target bsize run' rest
    else specExtractGo vsel isel target bsize [] rest

/-- The spec's WindowedExtractor (maximal consecutive runs), entry point. -/
def specExtract (vsel isel : StdpRow → ℚ) (target : ℚ) (bsize : ℕ)
    (data : List StdpRow) : List (ℚ × ℚ) :=
  specExtractGo vsel isel target bsize [] data

-- Every chunk kept by the code's chunking loop has length exactly `n`.
theorem fullChunksAux_mem_length (n : ℕ) :
    ∀ (fuel : ℕ) (l : List α), ∀ c ∈ fullChunksAux n fuel l, c.length = n := by
  intro fuel
  induction fuel with
  | zero => intro l c hc; simp [fullChunksAux] at hc
  | succ m ih =>
    intro l c hc
    rw [fullChunksAux] at hc
    by_cases h : n = 0 ∨ l.length < n
    · rw [if_pos h] at hc
      simp at hc
    · rw [if_neg h] at hc
      push_neg at h
      rcases List.mem_cons.mp hc with hc | hc
      · subst hc
        simp [List.length_take]
        omega
      · exact ih _ c hc

theorem fullChunks_mem_length (n : ℕ) (l : List α) :
    ∀ c ∈ fullChunks n l, c.length = n :=
  fullChunksAux_mem_length n l.length l

-- Sum of the sizes of a family of size-`n` chunks.
theorem sum_map_length_of_all_eq (n : ℕ) :
    ∀ (L : List (List α)), (∀ c ∈ L, c.length = n) →
      (L.map List.length).sum = L.length * n := by
  intro L
  induction L with
  | nil => intro _; simp
  | cons c L ih =>
    intro h
    have hc : c.length = n := h c (by simp)
    have hL : ∀ x ∈ L, x.length = n := fun x hx => h x (by simp [hx])
    simp [hc, ih hL, Nat.succ_mul, Nat.add_comm]

/-- Analysis parameters of `StdpTester.process_measurement_data`
(stdp_tester.py: `pre_before_post`, `V_read`, `V_spike`, `read_num`,
`spike_num`). -/
structure StdpParams where
  pre_before_post : Bool
  V_read : ℚ
  V_spike : ℚ
  read_num : ℕ
  spike_num : ℕ
deriving DecidableEq, Repr

/-- Pre-channel voltage column (stdp_tester.py lines 158-167): channel A
when `pre_before_post`, channel B otherwise. -/
def preVsel (p : StdpParams) (r : StdpRow) : ℚ :=
  if p.pre_before_post then r.vA else r.vB

/-- Pre-channel current column (stdp_tester.py lines 158-167). -/
def preIsel (p : StdpParams) (r : StdpRow) : ℚ :=
  if p.pre_before_post then r.iA else r.iB

/-- Post-channel voltage column (stdp_tester.py lines 158-167). -/
def postVsel (p : StdpParams) (r : StdpRow) : ℚ :=
  if p.pre_before_post then r.vB else r.vA

/-- Post-channel current column (stdp_tester.py lines 158-167); unused by
the delta computation (Δg reads only the pre-channel current). -/
def postIsel (p : StdpParams) (r : StdpRow) : ℚ :=
  if p.pre_before_post then r.iB else r.iA

/-- Mean currents of the full read blocks (stdp_tester.py lines 169-181). -/
def readCurrents (p : StdpParams) (data : List StdpRow) : List ℚ :=
  (extractBlocks (preVsel p) (preIsel p) p.V_read p.read_num data).map Prod.fst

/-- First-sample times of the full pre-channel spike blocks
(stdp_tester.py lines 184-195). -/
def spikePreTimes (p : StdpParams) (data : List StdpRow) : List ℚ :=
  (extractBlocks (preVsel p) (preIsel p) p.V_spike p.spike_num data).map Prod.snd

/-- First-sample times of the full post-channel spike blocks
(stdp_tester.py lines 185-201). -/
def spikePostTimes (p : StdpParams) (data : List StdpRow) : List ℚ :=
  (extractBlocks (postVsel p) (postIsel p) p.V_spike p.spike_num data).map Prod.snd

/-- The Δg loop (stdp_tester.py lines 204-212): for consecutive read-block
mean currents `i1, i2`, append `np.nan` (modelled `none`) when
`|i1| < 1e-20`, else `(i2 - i1) / i1`. -/
def deltaGList : List ℚ → List (Option ℚ)
  | i1 :: i2 :: rest =>
    (if |i1| < 1 / 10 ^ 20 then none else some ((i2 - i1) / i1)) ::
      deltaGList (i2 :: rest)
  | _ => []

/-- The Δt loop (stdp_tester.py lines 214-221): pair the i-th post spike
time with the i-th pre spike time up to the shorter list,
`dt = post - pre`, negated when `pre_before_post` is false. -/
def deltaTList (p : StdpParams) (data : List StdpRow) : List ℚ :=
  List.zipWith
    (fun tpost tpre =>
      if p.pre_before_post then tpost - tpre else -(tpost - tpre))
    (spikePostTimes p data) (spikePreTimes p data)

/-- `StdpTester.process_measurement_data` (stdp_tester.py lines 149-227):
returns the (Δt, Δg) series truncated to the common minimum length, or a
pair of empty arrays (after printing a warning, not modelled) when that
minimum is zero.  Δg entries are `Option ℚ` with `none` for the
`np.nan` sentinel. -/
def processMeasurementData (p : StdpParams) (data : List StdpRow) :
    List ℚ × List (Option ℚ) :=
  let dg := deltaGList (readCurrents p data)
  let dt := deltaTList p data
  let nmin := min dg.length dt.length
  if nmin = 0 then ([], [])
  else (dt.take nmin, dg.take nmin)

/-- Whether `process_measurement_data` prints its
"no valid read/spike pairs" diagnostic (stdp_tester.py lines 224-225). -/
def processWarns (p : StdpParams) (data : List StdpRow) : Bool :=
  min (deltaGList (readCurrents p data)).length (deltaTList p data).length = 0

/-- The measurement loop of `StdpTester.run_stdp_test`
(stdp_tester.py lines 125-138), one recursive step per loop iteration:
at step `i` source `A[i]`/`B[i]`, then query both channel currents.
`meas i = none` models an instrument communication failure (a raised
exception), which aborts the whole Python function — no data value is
returned, so the result is `none` and the rows built so far are lost.
`ts i` models the wall-clock stamp `time.time() - start` of step `i`. -/
def runFrom (A B : List ℚ) (ts : ℕ → ℚ) (meas : ℕ → Option (ℚ × ℚ)) :
    ℕ → ℕ → Option (List StdpRow)
  | _, 0 => some []
  | i, rem + 1 =>
    match meas i with
    | none => none
    | some (ia, ib) =>
      match runFrom A B ts meas (i + 1) rem with
      | none => none
      | some rest => some (⟨ts i, A.getD i 0, B.getD i 0, ia, ib⟩ :: rest)

/-- Time rebasing (stdp_tester.py lines 143-146): subtract the first
row's time from every row. -/
def rebase (l : List StdpRow) : List StdpRow :=
  match l with
  | [] => []
  | r0 :: _ => l.map (fun r => ⟨r.t - r0.t, r.vA, r.vB, r.iA, r.iB⟩)

/-- `StdpTester.run_stdp_test` (stdp_tester.py lines 107-147): assign the
pre/post sequences to channels A/B according to `pre_before_post`, run
`min` of the two lengths steps, then rebase times.  A failure at any
step yields `none` (exception propagates; no partial data returned). -/
def runStdpTest (pre_before_post : Bool) (pre post : List ℚ)
    (ts : ℕ → ℚ) (meas : ℕ → Option (ℚ × ℚ)) : Option (List StdpRow) :=
  let A := if pre_before_post then pre else post
  let B := if pre_before_post then post else pre
  (runFrom A B ts meas 0 (min A.length B.length)).map rebase

/-- Sequence-generation parameters of `StdpTester`
(stdp_tester.py lines 23-42): voltages and segment counts used by
`generate_voltage_sequences`. -/
structure StdpSeqParams where
  V_read : ℚ
  V_spike : ℚ
  V_rest : ℚ
  V_time : ℚ
  V_active : ℚ
  V_stop : ℚ
  read_num : ℕ
  spike_num : ℕ
  active_num : ℕ
  stop_num : ℕ
deriving DecidableEq, Repr

/-- One iteration's pre-channel segment of
`StdpTester.generate_voltage_sequences` (stdp_tester.py lines 80-86),
for timing value `t` (`int(t_1)` hold steps). -/
def preBlock (p : StdpSeqParams) (t : ℕ) : List ℚ :=
  List.replicate p.read_num p.V_read ++
  List.replicate p.spike_num p.V_spike ++
  List.replicate (p.active_num + p.spike_num) p.V_rest ++
  List.replicate t p.V_time ++
  List.replicate p.active_num p.V_active ++
  List.replicate p.read_num p.V_read ++
  List.replicate p.stop_num p.V_stop

/-- One iteration's post-channel segment of
`StdpTester.generate_voltage_sequences` (stdp_tester.py lines 89-94). -/
def postBlock (p : StdpSeqParams) (t : ℕ) : List ℚ :=
  List.replicate (p.read_num + p.spike_num) p.V_rest ++
  List.replicate p.active_num p.V_active ++
  List.replicate t p.V_time ++
  List.replicate p.spike_num p.V_spike ++
  List.replicate (p.active_num + p.read_num) p.V_rest ++
  List.replicate p.stop_num p.V_stop

/-- `StdpTester.generate_voltage_sequences` (stdp_tester.py lines 75-96):
concatenate one pre and one post segment per timing value in `time_num`. -/
def generateVoltageSequences (p : StdpSeqParams) (time_num : List ℕ) :
    List ℚ × List ℚ :=
  ((time_num.map (preBlock p)).flatten, (time_num.map (postBlock p)).flatten)

/-- `SinTester.generate_custom_sine_points` (sin_tester.py lines 30-37).
`s i` stands for the float `np.sin(i * np.pi / points_per_half)` (the
transcendental samples are left abstract; the code touches them only via
`s 0 = sin 0 = 0`).  `part1` is `s` on `0..n-1`, `part2` on `n..2n-1`,
each Python-`*cycles` concatenated, then a trailing `0.0`, all scaled by
`amplitude`. -/
def generateCustomSinePoints (s : ℕ → ℚ) (amplitude : ℚ) (n cycles : ℕ) :
    List ℚ :=
  let part1 := (List.range n).map s
  let part2 := (List.range n).map (fun i => s (n + i))
  let seq_pos := (List.replicate cycles part1).flatten
  let seq_neg := (List.replicate cycles part2).flatten
  ((seq_pos ++ seq_neg) ++ [0]).map (fun v => amplitude * v)

/-- `SinTester.fit_linear` (sin_tester.py lines 73-79): `(0, 0)` when
fewer than 2 points, else the ordinary-least-squares line
(`np.polyfit(x, y, 1)` in closed form) returning (slope, intercept). -/
def fitLinear (x y : List ℚ) : ℚ × ℚ :=
  if x.length < 2 then (0, 0)
  else
    let n : ℚ := x.length
    let sx := x.sum
    let sy := y.sum
    let sxy := (List.zipWith (· * ·) x y).sum
    let sxx := (x.map (fun v => v * v)).sum
    let slope := (n * sxy - sx * sy) / (n * sxx - sx * sx)
    (slope, (sy - slope * sx) / n)

/-- The 1-based index list `range(1, k+1)` used as the fit abscissa
(sin_tester.py lines 84-85). -/
def idx1 (k : ℕ) : List ℚ := (List.range k).map (fun i => ((i + 1 : ℕ) : ℚ))

/-- The two half-slopes of `SinTester.determine_m_type`
(sin_tester.py lines 83-89): split at `len // 2`, fit each half against
its own 1-based index. -/
def halfSlopes (currents : List ℚ) : ℚ × ℚ :=
  let half := currents.length / 2
  let k1 := (fitLinear (idx1 half) (currents.take half)).1
  let k2 := (fitLinear (idx1 (currents.length - half)) (currents.drop half)).1
  (k1, k2)

/-- The classifier's label strings "M0".."M4" (sin_tester.py
lines 90-98), modelled as an enumeration. -/
inductive MType
  | M0
  | M1
  | M2
  | M3
  | M4
deriving DecidableEq, Repr

/-- `SinTester.determine_m_type` (sin_tester.py lines 81-98): classify
the sign pair `(k1, k2)` of the two half-slopes into M1..M4, falling
back to M0 for any pair not matched (in particular any zero slope). -/
def determineMType (currents : List ℚ) : MType :=
  if (halfSlopes currents).1 < 0 ∧ 0 < (halfSlopes currents).2 then .M1
  else if (halfSlopes currents).1 < 0 ∧ (halfSlopes currents).2 < 0 then .M2
  else if 0 < (halfSlopes currents).1 ∧ (halfSlopes currents).2 < 0 then .M3
  else if 0 < (halfSlopes currents).1 ∧ 0 < (halfSlopes currents).2 then .M4
  else .M0

/-- An SRDP sample row `[t, v, i, label]` (srdp_tester.py lines 88, 99);
the free-text label is irrelevant to `process_measurement_data` and kept
as a `String`. -/
structure SrdpRow where
  time : ℚ
  voltage : ℚ
  current : ℚ
  label : String
deriving DecidableEq, Repr

/-- `SrdpTester.process_measurement_data` (srdp_tester.py lines 145-156):
keep rows whose measured voltage is `np.isclose` to `V_read`
(atol 0.01, default rtol 1e-5) and report, per kept row, (time, voltage,
current, conductance = current / V_read); the division is unguarded. -/
def srdpProcess (V_read : ℚ) (data : List SrdpRow) :
    List (ℚ × ℚ × ℚ × ℚ) :=
  (data.filter (fun r => iscloseB r.voltage V_read)).map
    (fun r => (r.time, r.voltage, r.current, r.current / V_read))

/-! ## Claim C7: sine-like sequence length and initial element -/

/-- C7: for every amplitude `A`, half-period point count `n ≥ 1` and
cycle count `c ≥ 1`, the generated sine-like voltage sequence has length
exactly `2*n*c + 1` and its first element is exactly `0`.  The
transcendental sample function `s` is abstract; `hs : s 0 = 0` records
the float fact `np.sin(0.0) = 0.0`. -/
theorem c7_sine_length_and_head (s : ℕ → ℚ) (A : ℚ) (n c : ℕ)
    (hn : 1 ≤ n) (hc : 1 ≤ c) (hs : s 0 = 0) :
    (generateCustomSinePoints s A n c).length = 2 * n * c + 1 ∧
      (generateCustomSinePoints s A n c).getD 0 0 = 0 := by
  constructor
  · simp [generateCustomSinePoints, List.length_flatten, List.map_replicate,
      List.sum_replicate, smul_eq_mul]
    ring
  · obtain ⟨n', rfl⟩ : ∃ n', n = n' + 1 := ⟨n - 1, by omega⟩
    obtain ⟨c', rfl⟩ : ∃ c', c = c' + 1 := ⟨c - 1, by omega⟩
    simp [generateCustomSinePoints, List.replicate_succ, List.range_succ_eq_map,
      hs]

/-- Closed witness for `c7_sine_length_and_head`. -/
theorem c7_witness :
    (generateCustomSinePoints (fun _ => 0) 1 1 1).length = 2 * 1 * 1 + 1 ∧
      (generateCustomSinePoints (fun _ => 0) 1 1 1).getD 0 0 = 0 :=
  c7_sine_length_and_head (fun _ => 0) 1 1 1 (by decide) (by decide) rfl

/-! ## Claim C6: two-segment linear-fit classifier -/

/-- C6: the classifier splits at `len // 2`, fits each half against its
own 1-based index (`halfSlopes`), and returns M1 for slopes `(-,+)`, M2
for `(-,-)`, M3 for `(+,-)`, M4 for `(+,+)`, M0 otherwise; a half with
fewer than 2 points gets the degenerate fit `(0, 0)`, and an exactly
zero slope on either side forces M0. -/
theorem c6_classifier (currents : List ℚ) :
    ((determineMType currents = .M1 ↔
        (halfSlopes currents).1 < 0 ∧ 0 < (halfSlopes currents).2) ∧
      (determineMType currents = .M2 ↔
        (halfSlopes currents).1 < 0 ∧ (halfSlopes currents).2 < 0) ∧
      (determineMType currents = .M3 ↔
        0 < (halfSlopes currents).1 ∧ (halfSlopes currents).2 < 0) ∧
      (determineMType currents = .M4 ↔
        0 < (halfSlopes currents).1 ∧ 0 < (halfSlopes currents).2) ∧
      ((halfSlopes currents).1 = 0 ∨ (halfSlopes currents).2 = 0 →
        determineMType currents = .M0)) ∧
    (∀ x y : List ℚ, x.length < 2 → fitLinear x y = (0, 0)) := by
  refine ⟨?_, fun x y h => by simp [fitLinear, h]⟩
  simp only [determineMType]
  set k1 := (halfSlopes currents).1 with hk1
  set k2 := (halfSlopes currents).2 with hk2
  rcases lt_trichotomy k1 0 with h1 | h1 | h1 <;>
    rcases lt_trichotomy k2 0 with h2 | h2 | h2
  · simp [h1, h2, asymm h1, asymm h2, ne_of_lt h1, ne_of_lt h2]
  · simp [h1, h2, lt_irrefl]
  · simp [h1, h2, asymm h1, asymm h2, ne_of_lt h1, ne_of_gt h2]
  · simp [h1, h2, lt_irrefl]
  · simp [h1, h2, lt_irrefl]
  · simp [h1, h2, lt_irrefl]
  · simp [h1, h2, asymm h1, asymm h2, ne_of_gt h1, ne_of_lt h2]
  · simp [h1, h2, lt_irrefl]
  · simp [h1, h2, asymm h1, asymm h2, ne_of_gt h1, ne_of_gt h2]

/-- Closed witness for `c6_classifier`: the empty sequence has two
degenerate halves (slopes `(0, 0)`) and classifies as M0, and the
degenerate fit itself returns `(0, 0)`. -/
theorem c6_witness :
    determineMType ([] : List ℚ) = MType.M0 ∧
      fitLinear ([] : List ℚ) [] = (0, 0) :=
  ⟨(c6_classifier []).1.2.2.2.2 (Or.inl (by decide)),
    (c6_classifier []).2 [] [] (by decide)⟩

/-! ## Claims C8 and C3: dual-channel executor -/

-- When every step in the window succeeds, the loop returns one sample
-- per step.
theorem runFrom_success (A B : List ℚ) (ts : ℕ → ℚ)
    (meas : ℕ → Option (ℚ × ℚ)) :
    ∀ (rem i : ℕ), (∀ j, i ≤ j → j < i + rem → (meas j).isSome) →
      ∃ l, runFrom A B ts meas i rem = some l ∧ l.length = rem := by
  intro rem
  induction rem with
  | zero => exact fun i _ => ⟨[], rfl, rfl⟩
  | succ m ih =>
    intro i h
    have hi : (meas i).isSome := h i le_rfl (by omega)
    obtain ⟨⟨ia, ib⟩, hm⟩ := Option.isSome_iff_exists.mp hi
    obtain ⟨l, hl, hlen⟩ := ih (i + 1) (fun j hj hj2 => h j (by omega) (by omega))
    refine ⟨⟨ts i, A.getD i 0, B.getD i 0, ia, ib⟩ :: l, ?_, by simp [hlen]⟩
    simp [runFrom, hm, hl]

-- A failure anywhere inside the window aborts the loop with no data.
theorem runFrom_failure (A B : List ℚ) (ts : ℕ → ℚ)
    (meas : ℕ → Option (ℚ × ℚ)) :
    ∀ (rem i j : ℕ), i ≤ j → j < i + rem → meas j = none →
      runFrom A B ts meas i rem = none := by
  intro rem
  induction rem with
  | zero => omega
  | succ m ih =>
    intro i j h1 h2 hj
    by_cases hij : j = i
    · subst hij
      simp [runFrom, hj]
    · have hj1 : i + 1 ≤ j := by omega
      rcases hm : meas i with _ | ⟨ia, ib⟩
      · simp [runFrom, hm]
      · have hrec := ih (i + 1) j hj1 (by omega) hj
        simp [runFrom, hm, hrec]

-- Rebasing preserves the number of samples.
theorem rebase_length (l : List StdpRow) : (rebase l).length = l.length := by
  cases l <;> simp [rebase]

/-- C8: for dual-channel step sequences of lengths `m` and `k`, a
failure-free run sources and measures exactly `min m k` steps and
returns exactly `min m k` samples. -/
theorem c8_min_truncation (pre_before_post : Bool) (pre post : List ℚ)
    (ts : ℕ → ℚ) (meas : ℕ → Option (ℚ × ℚ))
    (h : ∀ j, j < min pre.length post.length → (meas j).isSome) :
    ∃ l, runStdpTest pre_before_post pre post ts meas = some l ∧
      l.length = min pre.length post.length := by
  unfold runStdpTest
  cases hb : pre_before_post <;> simp only [Bool.false_eq_true, if_neg, if_pos]
  · obtain ⟨l, hl, hlen⟩ :=
      runFrom_success post pre ts meas (min post.length pre.length) 0
        (fun j _ hj2 => h j (by omega))
    refine ⟨rebase l, ?_, ?_⟩
    · simp [hl]
    · rw [rebase_length, hlen, Nat.min_comm]
  · obtain ⟨l, hl, hlen⟩ :=
      runFrom_success pre post ts meas (min pre.length post.length) 0
        (fun j _ hj2 => h j (by omega))
    refine ⟨rebase l, ?_, ?_⟩
    · simp [hl]
    · rw [rebase_length, hlen]

/-- Closed witness for `c8_min_truncation`: sequences of lengths 2 and 3
with an always-answering instrument give exactly `min 2 3 = 2` samples. -/
theorem c8_witness :
    ∃ l, runStdpTest true [1, 2] [3, 4, 5] (fun i => (i : ℚ))
        (fun _ => some (1, 1)) = some l ∧
      l.length = min ([1, 2] : List ℚ).length ([3, 4, 5] : List ℚ).length :=
  c8_min_truncation true [1, 2] [3, 4, 5] (fun i => (i : ℚ))
    (fun _ => some (1, 1)) (fun _ _ => rfl)

/-- C3 counterexample: ten planned dual-channel steps with an instrument
communication failure at step index 3 (so exactly 3 samples had been
collected).  The claim predicts that the executor still returns those 3
samples rebased to `t = 0`; instead the exception aborts
`run_stdp_test` and nothing is returned — the partial data is lost. -/
theorem c3_counterexample :
    runStdpTest true (List.replicate 10 (1 : ℚ)) (List.replicate 10 (2 : ℚ))
      (fun i => (i : ℚ))
      (fun i => if i < 3 then some (1, 1) else none) = none := by
  decide

/-- C3 amended: an instrument communication failure at any planned step
makes the executor return nothing at all — the exception propagates and
the samples collected before the failure are discarded, not rebased and
returned. -/
theorem c3_failure_loses_partial_data (pre_before_post : Bool)
    (pre post : List ℚ) (ts : ℕ → ℚ) (meas : ℕ → Option (ℚ × ℚ))
    (h : ∃ j, j < min pre.length post.length ∧ meas j = none) :
    runStdpTest pre_before_post pre post ts meas = none := by
  obtain ⟨j, hj, hmeas⟩ := h
  unfold runStdpTest
  cases hb : pre_before_post
  · have h0 := runFrom_failure post pre ts meas (min post.length pre.length) 0 j
      (by omega) (by omega) hmeas
    simp [h0]
  · have h0 := runFrom_failure pre post ts meas (min pre.length post.length) 0 j
      (by omega) (by omega) hmeas
    simp [h0]

/-- Closed witness for `c3_failure_loses_partial_data`. -/
theorem c3_witness :
    runStdpTest false [(1 : ℚ), 1] [(2 : ℚ), 2] (fun i => (i : ℚ))
      (fun _ => none) = none :=
  c3_failure_loses_partial_data false [1, 1] [2, 2] (fun i => (i : ℚ))
    (fun _ => none) ⟨0, by decide, rfl⟩

/-! ## Claim C2: windowed block extraction -/

/-- Three samples on channel A at target voltage 1 with an
out-of-tolerance sample in the middle: the two maximal in-tolerance runs
have length 1 each. -/
def c2data : List StdpRow := [⟨0, 1, 0, 1, 0⟩, ⟨1, 9, 0, 9, 0⟩, ⟨2, 1, 0, 3, 0⟩]

/-- C2 counterexample: with `block_size = 2`, both maximal matching runs
of `c2data` are shorter than the block size, so the claimed extractor
(`specExtract`, stated from the spec) emits nothing; the code's
extractor instead filters the matching samples globally and emits one
block `(mean 2, time 0)` that merges the two separate runs across the
out-of-tolerance gap — a run that ends early is *not* dropped. -/
theorem c2_counterexample :
    extractBlocks StdpRow.vA StdpRow.iA 1 2 c2data = [(2, 0)] ∧
      specExtract StdpRow.vA StdpRow.iA 1 2 c2data = [] ∧
      extractBlocks StdpRow.vA StdpRow.iA 1 2 c2data ≠
        specExtract StdpRow.vA StdpRow.iA 1 2 c2data := by
  refine ⟨?_, ?_, ?_⟩ <;>
    norm_num [c2data, extractBlocks, fullChunks, fullChunksAux, List.filter,
      iscloseB, qmean, specExtract, specExtractGo]

/-- C2 amended: the extractor filters *all* in-tolerance samples
(regardless of contiguity), splits that filtered subsequence into
consecutive chunks of `block_size`, and emits one block per *full*
chunk, dropping only the final underfull chunk.  Consequently every
emitted block still consists of exactly `block_size` samples and the
total number of filtered samples consumed into emitted blocks is
`(number of blocks) * block_size`, a multiple of `block_size`. -/
theorem c2_blocks_full_and_multiple (vsel isel : StdpRow → ℚ) (target : ℚ)
    (bsize : ℕ) (data : List StdpRow) :
    (∀ c ∈ fullChunks bsize (data.filter (fun r => iscloseB (vsel r) target)),
      c.length = bsize) ∧
    ((fullChunks bsize
        (data.filter (fun r => iscloseB (vsel r) target))).map List.length).sum
      = (extractBlocks vsel isel target bsize data).length * bsize := by
  constructor
  · exact fullChunks_mem_length bsize _
  · rw [sum_map_length_of_all_eq bsize _ (fullChunks_mem_length bsize _)]
    simp [extractBlocks]

/-- Closed witness for `c2_blocks_full_and_multiple`: the single chunk
emitted from `c2data` at block size 2 indeed has length 2. -/
theorem c2_witness :
    ([⟨0, 1, 0, 1, 0⟩, ⟨2, 1, 0, 3, 0⟩] : List StdpRow).length = 2 :=
  (c2_blocks_full_and_multiple StdpRow.vA StdpRow.iA 1 2 c2data).1
    [⟨0, 1, 0, 1, 0⟩, ⟨2, 1, 0, 3, 0⟩]
    (by norm_num [c2data, fullChunks, fullChunksAux, List.filter, iscloseB])

/-! ## Claim C1: Δg series and the near-zero-denominator sentinel -/

/-- Parameters for the C1 counterexample run: `pre_before_post`,
`V_read = 1`, `V_spike = 5`, `read_num = spike_num = 1`. -/
def c1params : StdpParams := ⟨true, 1, 5, 1, 1⟩

/-- Data for the C1 counterexample: two read blocks with mean currents
`0` and `7` (the first below the `1e-20` threshold), plus one pre-spike
and one post-spike block so a Δt entry exists. -/
def c1data : List StdpRow :=
  [⟨0, 1, 0, 0, 0⟩, ⟨10, 5, 0, 0, 0⟩, ⟨20, 0, 5, 0, 0⟩, ⟨30, 1, 0, 7, 0⟩]

/-- C1 counterexample: a read block with mean current `0` (whose
magnitude is below `1e-20`) produces the `np.nan` sentinel (`none`), and
that entry is *not* excluded from downstream use — it is counted by the
truncation and returned in the exported Δg series (`[none]`, paired
with Δt `[10]`), contradicting the claim that invalid entries are
excluded rather than silently propagated to later arithmetic/export. -/
theorem c1_counterexample :
    processMeasurementData c1params c1data = ([10], [none]) := by
  have hread : readCurrents c1params c1data = [0, 7] := by
    norm_num [c1params, c1data, readCurrents, extractBlocks, fullChunks,
      fullChunksAux, List.filter, iscloseB, qmean, preVsel, preIsel]
  have hpre : spikePreTimes c1params c1data = [10] := by
    norm_num [c1params, c1data, spikePreTimes, extractBlocks, fullChunks,
      fullChunksAux, List.filter, iscloseB, qmean, preVsel, preIsel]
  have hpost : spikePostTimes c1params c1data = [20] := by
    norm_num [c1params, c1data, spikePostTimes, extractBlocks, fullChunks,
      fullChunksAux, List.filter, iscloseB, qmean, postVsel, postIsel]
  have hdt : deltaTList c1params c1data = [10] := by
    rw [deltaTList, hpre, hpost]
    norm_num [c1params]
  have hdg : deltaGList (readCurrents c1params c1data) = [none] := by
    rw [hread]
    norm_num [deltaGList]
  rw [processMeasurementData, hdg, hdt]
  norm_num

/-- C1 amended: the Δg series has `Δg[i] = (I[i+1] - I[i]) / I[i]`
except that whenever `|I[i]| < 1e-20` the entry is the `np.nan`
sentinel (`none`); the sentinel is *not* excluded downstream — the
returned (exported) Δg series is precisely the raw Δg list truncated to
the common minimum length, sentinel entries included. -/
theorem c1_nan_sentinel_propagates :
    (∀ (I : List ℚ) (i : ℕ), i + 1 < I.length →
      (deltaGList I)[i]? =
        some (if |I.getD i 0| < 1 / 10 ^ 20 then none
          else some ((I.getD (i + 1) 0 - I.getD i 0) / I.getD i 0))) ∧
    (∀ (p : StdpParams) (data : List StdpRow),
      (processMeasurementData p data).2 =
        (deltaGList (readCurrents p data)).take
          (min (deltaGList (readCurrents p data)).length
            (deltaTList p data).length)) := by
  constructor
  · intro I
    induction I with
    | nil => intro i h; simp at h
    | cons a tl ih =>
      intro i h
      cases tl with
      | nil => simp at h
      | cons b tl2 =>
        cases i with
        | zero => simp [deltaGList]
        | succ k =>
          have hk : k + 1 < (b :: tl2).length := by
            simpa using Nat.lt_of_succ_lt_succ h
          have := ih k hk
          simpa [deltaGList] using this
  · intro p data
    rw [processMeasurementData]
    by_cases h :
        min (deltaGList (readCurrents p data)).length
          (deltaTList p data).length = 0
    · simp [h]
    · simp [h]

/-- Closed witness for `c1_nan_sentinel_propagates`: on read currents
`[0, 7]` the first Δg entry is the sentinel. -/
theorem c1_witness : (deltaGList [0, 7])[0]? = some none := by
  have h := c1_nan_sentinel_propagates.1 [0, 7] 0 (by norm_num)
  rw [h]
  norm_num

/-! ## Claim C4: Δt under pre/post role reversal -/

/-- The same analysis parameters with the pre/post channel roles
reversed (`pre_before_post` flipped). -/
def flipParams (p : StdpParams) : StdpParams :=
  { p with pre_before_post := !p.pre_before_post }

-- The block times do not depend on the current-column selector.
theorem extractBlocks_map_snd (vsel isel isel' : StdpRow → ℚ) (target : ℚ)
    (bsize : ℕ) (data : List StdpRow) :
    (extractBlocks vsel isel target bsize data).map Prod.snd =
      (extractBlocks vsel isel' target bsize data).map Prod.snd := by
  simp [extractBlocks, List.map_map, Function.comp]

-- Flipping the role flag swaps the pre and post spike-time lists.
theorem spikePreTimes_flip (p : StdpParams) (data : List StdpRow) :
    spikePreTimes (flipParams p) data = spikePostTimes p data := by
  have hv : preVsel (flipParams p) = postVsel p := by
    funext r
    cases hb : p.pre_before_post <;> simp [preVsel, postVsel, flipParams, hb]
  rw [spikePreTimes, spikePostTimes]
  rw [show (flipParams p).V_spike = p.V_spike from rfl,
    show (flipParams p).spike_num = p.spike_num from rfl, hv]
  exact extractBlocks_map_snd (postVsel p) (preIsel (flipParams p))
    (postIsel p) p.V_spike p.spike_num data

theorem spikePostTimes_flip (p : StdpParams) (data : List StdpRow) :
    spikePostTimes (flipParams p) data = spikePreTimes p data := by
  have hv : postVsel (flipParams p) = preVsel p := by
    funext r
    cases hb : p.pre_before_post <;> simp [preVsel, postVsel, flipParams, hb]
  rw [spikePostTimes, spikePreTimes]
  rw [show (flipParams p).V_spike = p.V_spike from rfl,
    show (flipParams p).spike_num = p.spike_num from rfl, hv]
  exact extractBlocks_map_snd (preVsel p) (postIsel (flipParams p))
    (preIsel p) p.V_spike p.spike_num data

-- Negated pairwise differences are the differences of the swapped lists.
theorem zipWith_neg_sub_swap : ∀ (A B : List ℚ),
    List.zipWith (fun x y => -(x - y)) A B =
      List.zipWith (fun x y => x - y) B A := by
  intro A
  induction A with
  | nil => intro B; cases B <;> simp
  | cons a tl ih =>
    intro B
    cases B with
    | nil => simp
    | cons b tlB =>
      have h := ih tlB
      simp only [neg_sub] at h
      simp [neg_sub, h]

/-- C4 amended: reversing the pre/post channel roles
(`pre_before_post` flipped) on the *same* sample data leaves the Δt
series unchanged — the sign correction already reports Δt in canonical
post-minus-pre terms under either assignment.  (Negating the flipped
run's series therefore yields the pointwise negation of the original,
not the original.) -/
theorem c4_deltaT_flip_invariant (p : StdpParams) (data : List StdpRow) :
    deltaTList (flipParams p) data = deltaTList p data := by
  rw [deltaTList, deltaTList, spikePreTimes_flip, spikePostTimes_flip]
  cases hb : p.pre_before_post
  · simp only [flipParams, hb, Bool.not_false, if_true, if_false,
      Bool.false_eq_true, reduceIte]
    rw [zipWith_neg_sub_swap]
  · simp only [flipParams, hb, Bool.not_true, if_true, if_false,
      Bool.false_eq_true, reduceIte]
    rw [zipWith_neg_sub_swap]

/-- Parameters for the C4 counterexample (canonical assignment). -/
def c4params : StdpParams := ⟨true, 1, 5, 1, 1⟩

/-- Data for the C4 counterexample: reads on both channels (so both
role assignments produce a Δg entry), one pre spike at `t = 10` on
channel A and one post spike at `t = 20` on channel B. -/
def c4data : List StdpRow :=
  [⟨0, 1, 1, 1, 1⟩, ⟨10, 5, 0, 0, 0⟩, ⟨20, 0, 5, 0, 0⟩, ⟨30, 1, 1, 2, 3⟩]

-- Δt of the canonical run on the C4 data.
theorem c4_run_original : (processMeasurementData c4params c4data).1 = [10] := by
  have hread : readCurrents c4params c4data = [1, 2] := by
    norm_num [c4params, c4data, readCurrents, extractBlocks, fullChunks,
      fullChunksAux, List.filter, iscloseB, qmean, preVsel, preIsel]
  have hpre : spikePreTimes c4params c4data = [10] := by
    norm_num [c4params, c4data, spikePreTimes, extractBlocks, fullChunks,
      fullChunksAux, List.filter, iscloseB, qmean, preVsel, preIsel]
  have hpost : spikePostTimes c4params c4data = [20] := by
    norm_num [c4params, c4data, spikePostTimes, extractBlocks, fullChunks,
      fullChunksAux, List.filter, iscloseB, qmean, postVsel, postIsel]
  have hdt : deltaTList c4params c4data = [10] := by
    rw [deltaTList, hpre, hpost]
    norm_num [c4params]
  have hdg : deltaGList (readCurrents c4params c4data) = [some 1] := by
    rw [hread]
    norm_num [deltaGList]
  rw [processMeasurementData, hdg, hdt]
  norm_num

-- Δt of the role-reversed run on the same C4 data.
theorem c4_run_flipped :
    (processMeasurementData (flipParams c4params) c4data).1 = [10] := by
  have hread : readCurrents (flipParams c4params) c4data = [1, 3] := by
    norm_num [c4params, flipParams, c4data, readCurrents, extractBlocks,
      fullChunks, fullChunksAux, List.filter, iscloseB, qmean, preVsel, preIsel]
  have hpre : spikePreTimes (flipParams c4params) c4data = [20] := by
    norm_num [c4params, flipParams, c4data, spikePreTimes, extractBlocks,
      fullChunks, fullChunksAux, List.filter, iscloseB, qmean, preVsel, preIsel]
  have hpost : spikePostTimes (flipParams c4params) c4data = [10] := by
    norm_num [c4params, flipParams, c4data, spikePostTimes, extractBlocks,
      fullChunks, fullChunksAux, List.filter, iscloseB, qmean, postVsel,
      postIsel]
  have hdt : deltaTList (flipParams c4params) c4data = [10] := by
    rw [deltaTList, hpre, hpost]
    norm_num [c4params, flipParams]
  have hdg : deltaGList (readCurrents (flipParams c4params) c4data) =
      [some 2] := by
    rw [hread]
    norm_num [deltaGList]
  rw [processMeasurementData, hdg, hdt]
  norm_num

/-- C4 counterexample: on the same data, the run with roles reversed
already reproduces the original Δt series `[10]`; *negating* it gives
`[-10] ≠ [10]`, so "flip and negate reproduces the original" is false
whenever Δt is nonzero. -/
theorem c4_counterexample :
    (processMeasurementData c4params c4data).1 = [10] ∧
      (processMeasurementData (flipParams c4params) c4data).1 = [10] ∧
      (processMeasurementData (flipParams c4params) c4data).1.map
          (fun x => -x) ≠
        (processMeasurementData c4params c4data).1 := by
  refine ⟨c4_run_original, c4_run_flipped, ?_⟩
  rw [c4_run_original, c4_run_flipped]
  norm_num

/-! ## Claim C5: STDP dual-channel sequence structure -/

/-- C5 amended: for every timing value `t` the generator's pre and post
per-iteration step lists have equal length (index-for-index lock-step,
also for the full concatenated sequences), and the spike segments sit at
offsets `read_num` (pre) and `read_num + spike_num + active_num + t`
(post): the two spike segments are offset by
`spike_num + active_num + t` steps, not by exactly `t`. -/
theorem c5_lockstep_and_spike_offset (p : StdpSeqParams) (t : ℕ) :
    (preBlock p t).length = (postBlock p t).length ∧
      (∀ time_num : List ℕ,
        (generateVoltageSequences p time_num).1.length =
          (generateVoltageSequences p time_num).2.length) ∧
      ((preBlock p t).drop p.read_num).take p.spike_num =
        List.replicate p.spike_num p.V_spike ∧
      ((postBlock p t).drop
          (p.read_num + p.spike_num + p.active_num + t)).take p.spike_num =
        List.replicate p.spike_num p.V_spike := by
  have hlen : ∀ u : ℕ, (preBlock p u).length = (postBlock p u).length := by
    intro u
    simp [preBlock, postBlock]
    omega
  have hdrop : ∀ (k : ℕ) (x : ℚ) (L : List ℚ),
      (List.replicate k x ++ L).drop k = L := by
    intro k x L
    induction k with
    | zero => simp
    | succ j ih => simp [List.replicate_succ, ih]
  have hdropAdd : ∀ (k : ℕ) (m : ℕ) (x : ℚ) (L : List ℚ),
      (List.replicate k x ++ L).drop (k + m) = L.drop m := by
    intro k m x L
    induction k with
    | zero => simp
    | succ j ih => simpa [List.replicate_succ, Nat.succ_add] using ih
  have htake : ∀ (k : ℕ) (x : ℚ) (L : List ℚ),
      (List.replicate k x ++ L).take k = List.replicate k x := by
    intro k x L
    induction k with
    | zero => simp
    | succ j ih => simp [List.replicate_succ, ih]
  refine ⟨hlen t, ?_, ?_, ?_⟩
  · intro time_num
    induction time_num with
    | nil => simp [generateVoltageSequences]
    | cons u tl ih =>
      simp only [generateVoltageSequences, List.map_cons, List.flatten_cons,
        List.length_append] at ih ⊢
      rw [hlen u, ih]
  · simp only [preBlock, List.append_assoc]
    rw [hdrop, htake]
  · have e1 : p.read_num + p.spike_num + p.active_num + t =
        p.read_num + p.spike_num + (p.active_num + t) := by ring
    simp only [postBlock, List.append_assoc]
    rw [e1, hdropAdd, hdropAdd, hdrop, htake]

/-- Concrete parameters for the C5 counterexample: pairwise distinct
voltages (`V_read = 1`, `V_spike = 2`, `V_rest = 0`, `V_time = 3`,
`V_active = 4`, `V_stop = 5`) and one step per role segment. -/
def c5params : StdpSeqParams := ⟨1, 2, 0, 3, 4, 5, 1, 1, 1, 1⟩

/-- C5 counterexample: with `t = 0` the claim predicts the two spike
segments coincide (offset exactly `t = 0` hold-steps).  Instead the pre
spike is the single step at index 1 while the post spike is the single
step at index 3 (`read_num + spike_num + active_num + t`); indices 1
and 2 of the post sequence are not spike steps. -/
theorem c5_counterexample :
    (preBlock c5params 0).getD 1 0 = c5params.V_spike ∧
      (postBlock c5params 0).getD 1 0 ≠ c5params.V_spike ∧
      (postBlock c5params 0).getD 2 0 ≠ c5params.V_spike ∧
      (postBlock c5params 0).getD 3 0 = c5params.V_spike := by
  refine ⟨?_, ?_, ?_, ?_⟩ <;>
    norm_num [c5params, preBlock, postBlock, List.replicate, List.getD]

/-! ## Claim C9: equal-length truncation and the empty-result case -/

/-- C9: the returned Δt and Δg arrays always have equal length, namely
the minimum of the two source-series lengths, and when that minimum is
zero the function returns two empty arrays (with a printed diagnostic,
`processWarns`) instead of raising. -/
theorem c9_equal_truncation (p : StdpParams) (data : List StdpRow) :
    (processMeasurementData p data).1.length =
        (processMeasurementData p data).2.length ∧
      (processMeasurementData p data).1.length =
        min (deltaTList p data).length
          (deltaGList (readCurrents p data)).length ∧
      (min (deltaGList (readCurrents p data)).length
          (deltaTList p data).length = 0 →
        processMeasurementData p data = ([], []) ∧
          processWarns p data = true) := by
  simp only [processMeasurementData]
  by_cases h :
      min (deltaGList (readCurrents p data)).length
        (deltaTList p data).length = 0
  · have h' : min (deltaTList p data).length
        (deltaGList (readCurrents p data)).length = 0 := by
      rw [Nat.min_comm]
      exact h
    exact ⟨by simp [h], by simp [h, h'], fun _ =>
      ⟨by simp [h], by simp [processWarns, h]⟩⟩
  · refine ⟨?_, ?_, fun h0 => absurd h0 h⟩
    · rw [if_neg h]
      simp only [List.length_take]
      omega
    · rw [if_neg h]
      simp only [List.length_take]
      omega

/-- Closed witness for `c9_equal_truncation`: on empty data the minimum
is zero, so both returned arrays are empty and the diagnostic fires. -/
theorem c9_witness :
    processMeasurementData ⟨true, 1, 5, 1, 1⟩ [] = ([], []) ∧
      processWarns ⟨true, 1, 5, 1, 1⟩ [] = true :=
  (c9_equal_truncation ⟨true, 1, 5, 1, 1⟩ []).2.2 (by
    norm_num [readCurrents, extractBlocks, fullChunks, fullChunksAux,
      deltaGList, deltaTList, spikePreTimes, spikePostTimes])

/-! ## Claim C10: SRDP conductance of read rows -/

/-- C10: every sample row whose measured voltage is within `0.01 V` of
`V_read` passes the read mask (the mask's tolerance is
`0.01 + 1e-5 * |V_read|`, at least `0.01`), and its reported
conductance is exactly its measured current divided by `V_read`; the
division is unguarded, so `V_read ≠ 0` is the well-definedness
precondition — and with `V_read = 0` a rest/off row (measured voltage
`0`) also passes the read mask, sending the division a zero
denominator. -/
theorem c10_conductance (V_read : ℚ) (data : List SrdpRow) (r : SrdpRow)
    (hV : V_read ≠ 0) (hr : r ∈ data)
    (hclose : |r.voltage - V_read| ≤ 1 / 100) :
    (r.time, r.voltage, r.current, r.current / V_read) ∈
        srdpProcess V_read data ∧
      (∀ v : ℚ, v = 0 → iscloseB v 0 = true) := by
  constructor
  · have hmask : iscloseB r.voltage V_read = true := by
      rw [iscloseB, decide_eq_true_eq]
      have : (0 : ℚ) ≤ (1 / 100000) * |V_read| := by positivity
      linarith
    exact List.mem_map_of_mem _ (List.mem_filter.mpr ⟨hr, hmask⟩)
  · intro v hv
    subst hv
    norm_num [iscloseB]

/-- Closed witness for `c10_conductance`: a read row at `0.1 V` with
current `2` reports conductance `2 / 0.1 = 20`, and a `0 V` row passes
the mask when `V_read = 0`. -/
theorem c10_witness :
    ((0 : ℚ), (1 / 10 : ℚ), (2 : ℚ), (2 : ℚ) / (1 / 10)) ∈
        srdpProcess (1 / 10) [⟨0, 1 / 10, 2, "read_1-1"⟩] ∧
      (∀ v : ℚ, v = 0 → iscloseB v 0 = true) :=
  c10_conductance (1 / 10) [⟨0, 1 / 10, 2, "read_1-1"⟩] ⟨0, 1 / 10, 2, "read_1-1"⟩
    (by norm_num) (by simp) (by norm_num)
